import Mathlib

/-!
Verification development for the peer-observer event-normalization core:
the unstructured-log classifier (`shared/src/log_matchers.rs`), the event
envelope (`shared/src/protobuf/event.rs`), and the periodic RPC extraction
loop (`extractors/rpc/src/lib.rs`).

Modelling conventions:
* Rust `String`/`&str` values are modelled as `List Char`.
* The Rust `regex` crate has leftmost-first (Perl-like) match semantics; each
  of the four concrete patterns used by the classifier is translated into an
  explicit deterministic matcher that realizes exactly that preference order
  (greedy repetition with minimal give-back, lazy repetition taking the
  shortest extension first, alternatives tried left to right, leftmost start
  position for unanchored searches).
* The character classes `\d` and `\s` and the case conversion `to_uppercase`
  are modelled by their ASCII fragments; all inputs appearing in the claims
  and in the repository's tests are ASCII.
* Machine integers: `u32`/`u64` casts are explicit `% 2 ^ 32` / `% 2 ^ 64`
  operations on `Nat`/`Int`; Rust's `i128` division (truncation toward zero)
  is `Int.tdiv`, and the wrapping `as u64` cast is `Int.emod · (2 ^ 64)`.
* Ambient effects (the system clock, the RPC endpoint, the NATS connection,
  the tokio select arbitration) are passed as explicit parameters/oracles.
-/

namespace PeerObserver

set_option maxRecDepth 100000

/-! ## Character classes (ASCII fragments of the regex classes) -/

/-- The regex class `\d` (ASCII fragment). -/
def isAsciiDigit (c : Char) : Bool := '0' ≤ c && c ≤ '9'

/-- The regex class `\s` (ASCII fragment of Unicode White_Space). -/
def isWs (c : Char) : Bool :=
  c = ' ' || c = '\t' || c = '\n' || c = '\r' || c = '\x0b' || c = '\x0c'

/-- The regex class `[0-9a-f]` used by `BLOCK_HASH_PATTERN`. -/
def isLowerHex (c : Char) : Bool :=
  ('0' ≤ c && c ≤ '9') || ('a' ≤ c && c ≤ 'f')

/-- Numeric value of a string of ASCII digits (most significant first). -/
def natOfDigits (cs : List Char) : Nat :=
  cs.foldl (fun a c => 10 * a + (c.toNat - 48)) 0

/-! ## Primitive pattern steps -/

/-- Drop an expected literal string from the front, or fail. -/
def dropLit : List Char → List Char → Option (List Char)
  | [], cs => some cs
  | l :: ls, c :: cs => if c = l then dropLit ls cs else none
  | _ :: _, [] => none

/-! ## The structural pattern `LOG_LINE_REGEX`

`^(?P<timestamp>TS)\s+(?P<metadata>(?:\[([^\]]+)\]\s+)*)(?P<message>.+)$`
where `TS = \d{4}-\d{2}-\d{2}T\d{2}:\d{2}:\d{2}(?:\.\d{1,6})?Z`. -/

/-- The optional-fraction tail `(?:\.\d{1,6})?Z` of `RFC3339_DATE_PATTERN`.
Greedy: a fraction of 1–6 digits is preferred; since every give-back position
is followed by a digit (never `Z`), a fraction of more than 6 digits, or a
dot not followed by a digit, fails the whole pattern. -/
def parseFracZ : List Char → Option (List Char × List Char)
  | '.' :: rest =>
    let run := rest.takeWhile isAsciiDigit
    if run.length = 0 || 6 < run.length then none
    else
      match rest.drop run.length with
      | 'Z' :: r => some ('.' :: (run ++ ['Z']), r)
      | _ => none
  | 'Z' :: r => some (['Z'], r)
  | _ => none

/-- Match a fixed template at the front of a string: `d` in the template
stands for one ASCII digit, every other template character is a literal.
Returns the digit characters (in order) and the rest of the input. -/
def matchTemplate : List Char → List Char → Option (List Char × List Char)
  | [], cs => some ([], cs)
  | 'd' :: ts, c :: cs =>
    if isAsciiDigit c then (matchTemplate ts cs).map (fun p => (c :: p.1, p.2))
    else none
  | t :: ts, c :: cs => if c = t then matchTemplate ts cs else none
  | _ :: _, [] => none

/-- Match `RFC3339_DATE_PATTERN` at the front of the line:
`\d{4}-\d{2}-\d{2}T\d{2}:\d{2}:\d{2}` (a fixed 19-character shape), then the
optional fraction and the literal `Z`. Returns the matched timestamp
substring (the `timestamp` capture) and the rest. -/
def parseTimestamp (cs : List Char) : Option (List Char × List Char) := do
  let (_, r1) ← matchTemplate "dddd-dd-ddTdd:dd:dd".toList cs
  let (fz, r2) ← parseFracZ r1
  pure (cs.take 19 ++ fz, r2)

/-- One iteration's `\[([^\]]+)\]` part: returns the token (the inner capture)
and the rest after the closing bracket. Deterministic: `[^\]]+` is greedy and
cannot consume `]`, so it runs to the first `]`. -/
def parseTok (cs : List Char) : Option (List Char × List Char) :=
  match cs with
  | '[' :: rest =>
    let tok := rest.takeWhile (fun c => c ≠ ']')
    let rest' := rest.drop tok.length
    if tok.length ≠ 0 && rest'.length ≠ 0 then some (tok, rest'.tail) else none
  | _ => none

/-- The suffix `(?:\[([^\]]+)\]\s+)*(?P<message>.+)$` with leftmost-first
(backtracking) semantics, returning the `metadata` capture (the exact
characters consumed by the starred group) and the `message` capture.

Preference order realized here, exactly as a Perl-style engine explores it:
one more starred iteration is preferred over stopping; inside an iteration the
trailing `\s+` is greedy, giving back one whitespace character at a time on
failure of the continuation (down to its minimum of one); when the whole
iteration fails, the star stops and `.+$` (any non-newline characters, at
least one, up to the end) must consume the remainder.

The fuel argument only bounds the recursion; `fuel = cs.length + 1` always
suffices because every iteration consumes at least four characters. -/
def starMsgAux : Nat → List Char → Option (List Char × List Char)
  | 0, _ => none
  | fuel + 1, cs =>
    let msgBranch : Option (List Char × List Char) :=
      if cs.length ≠ 0 && cs.all (fun c => c ≠ '\n') then some ([], cs) else none
    match parseTok cs with
    | none => msgBranch
    | some (tok, rest) =>
      let n := (rest.takeWhile isWs).length
      if n = 0 then msgBranch
      else
        match (List.range n).findSome? (fun i =>
            (starMsgAux fuel (rest.drop (n - i))).map (fun p =>
              ('[' :: (tok ++ (']' :: rest.take (n - i))) ++ p.1, p.2))) with
        | some r => some r
        | none => msgBranch

/-- The starred-metadata-plus-message suffix matcher with sufficient fuel. -/
def matchStarMsg (cs : List Char) : Option (List Char × List Char) :=
  starMsgAux (cs.length + 1) cs

/-- The three named captures of `LOG_LINE_REGEX`. -/
structure RawCaps where
  timestamp : List Char
  metadata : List Char
  message : List Char
  deriving DecidableEq, Repr

/-- Embedding of `LOG_LINE_REGEX.captures(line)`: anchored at the start, the
timestamp pattern, then greedy `\s+` (giving back trailing whitespace
characters one at a time, down to its minimum of one, when the suffix fails),
then the starred metadata group and the message. -/
def logLineCaptures (line : List Char) : Option RawCaps :=
  match parseTimestamp line with
  | none => none
  | some (ts, r1) =>
    let n := (r1.takeWhile isWs).length
    if n = 0 then none
    else
      match (List.range n).findSome? (fun i => matchStarMsg (r1.drop (n - i))) with
      | none => none
      | some (meta, msg) => some ⟨ts, meta, msg⟩

/-- Embedding of `METADATA_REGEX.captures_iter(metadata)`: the inner captures
of the successive non-overlapping leftmost matches of `\[([^\]]+)\]`. The
fuel argument only bounds the recursion; every recursive call consumes at
least one character, so `fuel = cs.length + 1` always suffices. -/
def tokensOfAux : Nat → List Char → List (List Char)
  | 0, _ => []
  | _ + 1, [] => []
  | fuel + 1, '[' :: rest =>
    if (rest.takeWhile (fun c => c ≠ ']')).length ≠ 0 &&
        (rest.drop (rest.takeWhile (fun c => c ≠ ']')).length).length ≠ 0 then
      rest.takeWhile (fun c => c ≠ ']') ::
        tokensOfAux fuel (rest.drop (rest.takeWhile (fun c => c ≠ ']')).length).tail
    else
      tokensOfAux fuel rest
  | fuel + 1, _ :: rest => tokensOfAux fuel rest

/-- The metadata token list, with sufficient fuel. -/
def tokensOf (cs : List Char) : List (List Char) :=
  tokensOfAux (cs.length + 1) cs

/-! ## Calendar timestamp parsing

Embedding of `OffsetDateTime::parse(timestamp_str, &Rfc3339)` followed by
`unix_timestamp_nanos()` (the `time` crate). The syntactic shape accepted
here is the one reachable from the structural match (`T`/`Z` separators, a
fraction of at most nine digits); the semantic validation (calendar and clock
ranges; the `time` crate supports no leap seconds) is complete. -/

/-- Gregorian leap-year test. -/
def isLeapYear (y : Nat) : Bool := (y % 4 = 0 && y % 100 ≠ 0) || y % 400 = 0

/-- Number of days of month `m` (1-based) in year `y`. -/
def daysInMonth (y m : Nat) : Nat :=
  match m with
  | 1 => 31
  | 2 => if isLeapYear y then 29 else 28
  | 3 => 31
  | 4 => 30
  | 5 => 31
  | 6 => 30
  | 7 => 31
  | 8 => 31
  | 9 => 30
  | 10 => 31
  | 11 => 30
  | 12 => 31
  | _ => 0

/-- Days from the Unix epoch (1970-01-01) to the civil date `y-m-d`
(Hinnant's algorithm; negative for dates before the epoch). -/
def daysFromCivil (y m d : Nat) : Int :=
  let yi : Int := if m ≤ 2 then (y : Int) - 1 else (y : Int)
  let era : Int := (if 0 ≤ yi then yi else yi - 399) / 400
  let yoe : Int := yi - era * 400
  let mp : Int := ((m : Int) + 9) % 12
  let doy : Int := (153 * mp + 2) / 5 + (d : Int) - 1
  let doe : Int := yoe * 365 + yoe / 4 - yoe / 100 + doy
  era * 146097 + doe - 719468

/-- The optional subsecond fraction of an RFC 3339 timestamp: a dot followed
by one to nine digits; returns the digit characters ( `[]` if absent). -/
def rfcFrac : List Char → Option (List Char × List Char)
  | '.' :: rest =>
    let run := rest.takeWhile isAsciiDigit
    if run.length = 0 || 9 < run.length then none
    else some (run, rest.drop run.length)
  | cs => some ([], cs)

/-- The calendar/clock range checks of the `time` crate: month 1–12, a day
valid for the month and year, hour at most 23, minute and second at most 59
(the crate supports no leap seconds). -/
def checkRanges (y mo d h mi s : Nat) : Bool :=
  (1 ≤ mo && mo ≤ 12) && (1 ≤ d && d ≤ daysInMonth y mo) &&
    (h ≤ 23 && mi ≤ 59 && s ≤ 59)

/-- Parse an RFC 3339 UTC timestamp string and return the nanoseconds since
the Unix epoch (negative before the epoch), or `none` if the string is
malformed or a calendar/clock component is out of range. -/
def rfc3339ToNanos (cs : List Char) : Option Int := do
  let (dg, r1) ← matchTemplate "dddd-dd-ddTdd:dd:dd".toList cs
  let (frac, r2) ← rfcFrac r1
  let r3 ← dropLit "Z".toList r2
  guard (r3.length = 0)
  let y := natOfDigits (dg.take 4)
  let mo := natOfDigits ((dg.drop 4).take 2)
  let d := natOfDigits ((dg.drop 6).take 2)
  let h := natOfDigits ((dg.drop 8).take 2)
  let mi := natOfDigits ((dg.drop 10).take 2)
  let s := natOfDigits ((dg.drop 12).take 2)
  guard (checkRanges y mo d h mi s)
  let secs : Int := daysFromCivil y mo d * 86400 + h * 3600 + mi * 60 + s
  pure (secs * 1000000000 + (natOfDigits frac : Int) * 10 ^ (9 - frac.length))

/-- `NANOS_PER_MICRO` from `log_matchers.rs`. -/
def NANOS_PER_MICRO : Int := 1000

/-- The wrapping Rust cast `as u64` on a signed value (low 64 bits;
`%` on `Int` is euclidean remainder, which is exactly the two's-complement
wrap for a positive power-of-two modulus). -/
def toU64 (x : Int) : Nat := (x % (2 ^ 64)).toNat

/-! ## The log data model -/

/-- Modelled from the spec: the `LogDebugCategory` enumeration is generated
from the protobuf schema (not under `src/`); the spec describes it as a
closed severity/debug-category enumeration with an `Unknown` member for
absent or unrecognized categories, and the spec's examples and the
repository's tests exercise the `NET` and `VALIDATION` members. -/
inductive LogDebugCategory where
  | Unknown
  | Net
  | Validation
  deriving DecidableEq, Repr

/-- Modelled from the spec: prost's generated `from_str_name`, which maps the
exact (uppercase) protobuf value name to the enumeration member and anything
else to `None`. -/
def fromStrName (cs : List Char) : Option LogDebugCategory :=
  if cs = "UNKNOWN".toList then some LogDebugCategory.Unknown
  else if cs = "NET".toList then some LogDebugCategory.Net
  else if cs = "VALIDATION".toList then some LogDebugCategory.Validation
  else none

/-- Rust's `str::to_uppercase` (ASCII fragment). -/
def toUpperAscii (cs : List Char) : List Char := cs.map Char.toUpper

/-- The `CommonLogData` struct of `log_matchers.rs`. -/
structure CommonLogData where
  timestamp_micro : Nat
  category : LogDebugCategory
  threadname : List Char
  message : List Char
  deriving DecidableEq, Repr

/-- The `LogEvent` oneof of the generated `log_extractor` module: exactly one
variant per parse (`UnknownLogMessage`, `BlockConnectedLog`,
`BlockCheckedLog`), with the fields the matchers populate. -/
inductive LogEvent where
  | UnknownLogMessage (raw_message : List Char)
  | BlockConnectedLog (block_hash : List Char) (block_height : Nat)
  | BlockCheckedLog (block_hash : List Char) (state : List Char)
      (debug_message : List Char)
  deriving DecidableEq, Repr

/-- The `Log` message produced by `parse_log_event`. -/
structure Log where
  log_timestamp : Nat
  category : LogDebugCategory
  threadname : List Char
  log_event : Option LogEvent
  deriving DecidableEq, Repr

/-! ## `parse_common_log_data` -/

/-- The category step of `parse_common_log_data`: the last metadata item, if
it exists and its uppercasing is a known category name, is consumed as the
category and popped; otherwise the category is `Unknown` and the item list is
unchanged. -/
def extractCategory (items : List (List Char)) :
    LogDebugCategory × List (List Char) :=
  match items.getLast? with
  | some last =>
    match fromStrName (toUpperAscii last) with
    | some cat => (cat, items.dropLast)
    | none => (LogDebugCategory.Unknown, items)
  | none => (LogDebugCategory.Unknown, items)

/-- Embedding of `parse_common_log_data`: structural match, then calendar
parse of the timestamp capture (0 on parse failure), then the metadata-token
heuristic (last item is the category candidate, first remaining item the
thread name), then the message capture. -/
def parse_common_log_data (line : List Char) : CommonLogData :=
  match logLineCaptures line with
  | none => ⟨0, LogDebugCategory.Unknown, [], []⟩
  | some caps =>
    let timestampNano : Int :=
      match rfc3339ToNanos caps.timestamp with
      | some n => n
      | none => 0
    let timestampMicro : Nat := toU64 (timestampNano.tdiv NANOS_PER_MICRO)
    let items := tokensOf caps.metadata
    let catItems := extractCategory items
    let threadname := catItems.2.head?.getD []
    ⟨timestampMicro, catItems.1, threadname, caps.message⟩

/-! ## The event matchers -/

/-- Scan start positions left to right and return the first position's match:
the unanchored `Regex::captures` search under leftmost-first semantics. -/
def regexFind {α : Type} (matchAt : List Char → Option α) :
    List Char → Option α
  | [] => matchAt []
  | c :: rest =>
    match matchAt (c :: rest) with
    | some r => some r
    | none => regexFind matchAt rest

/-- Match `BLOCK_CONNECTED_REGEX` at the start of the text:
`BlockConnected: block hash=([0-9a-f]{64}) block height=(\d+)`.
Returns the two captures (hash characters, height digits); the trailing
`\d+` is greedy with nothing after it, so the capture is the maximal
digit run. -/
def bcMatchAt (cs : List Char) : Option (List Char × List Char) := do
  let r1 ← dropLit "BlockConnected: block hash=".toList cs
  let hash := r1.take 64
  guard (hash.length = 64 && hash.all isLowerHex)
  let r2 ← dropLit " block height=".toList (r1.drop 64)
  let ds := r2.takeWhile isAsciiDigit
  guard (ds.length ≠ 0)
  pure (hash, ds)

/-- Rust's `str::parse::<u32>()` on a digit capture: the numeric value if it
fits in 32 bits, `None` on overflow. -/
def parseU32 (ds : List Char) : Option Nat :=
  if natOfDigits ds < 2 ^ 32 then some (natOfDigits ds) else none

/-- `<BlockConnectedLog as LogMatcher>::parse_event`: leftmost regex match,
then the height capture parsed as `u32` (parse failure means no match). -/
def blockConnectedParseEvent (line : List Char) : Option LogEvent := do
  let caps ← regexFind bcMatchAt line
  let h ← parseU32 caps.2
  pure (LogEvent.BlockConnectedLog caps.1 h)

/-- The `VALIDATION_STATE_PATTERN` suffix `(.*?)(?:,\s|$)(.+)?` under
leftmost-first semantics: the lazy `(.*?)` takes the shortest prefix (of
non-newline characters) after which either `,` plus a whitespace character
follows (preferred) or the end of the text is reached; the optional greedy
`(.+)?` then captures the maximal non-newline run, with an empty capture
mapped to the empty string (the `map_or` in the source). Returns
`(state, debug_message)`. -/
def lazyState : List Char → Option (List Char × List Char)
  | [] => some ([], [])
  | [c] => if c = '\n' then none else some ([c], [])
  | c :: c2 :: rest =>
    if c = ',' && isWs c2 then
      some ([], rest.takeWhile (fun x => x ≠ '\n'))
    else if c = '\n' then none
    else (lazyState (c2 :: rest)).map (fun p => (c :: p.1, p.2))

/-- Match `BLOCK_CHECKED_REGEX` at the start of the text:
`BlockChecked: block hash=([0-9a-f]{64}) state=(.*?)(?:,\s|$)(.+)?`.
Returns (hash, state, debug_message). -/
def bchkMatchAt (cs : List Char) :
    Option (List Char × List Char × List Char) := do
  let r1 ← dropLit "BlockChecked: block hash=".toList cs
  let hash := r1.take 64
  guard (hash.length = 64 && hash.all isLowerHex)
  let r2 ← dropLit " state=".toList (r1.drop 64)
  let (st, dbg) ← lazyState r2
  pure (hash, st, dbg)

/-- `<BlockCheckedLog as LogMatcher>::parse_event`. -/
def blockCheckedParseEvent (line : List Char) : Option LogEvent :=
  (regexFind bchkMatchAt line).map
    (fun c => LogEvent.BlockCheckedLog c.1 c.2.1 c.2.2)

/-- `<UnknownLogMessage as LogMatcher>::parse_event`: always succeeds,
wrapping the raw text. -/
def unknownParseEvent (line : List Char) : Option LogEvent :=
  some (LogEvent.UnknownLogMessage line)

/-- The matcher registration list of `parse_log_event`, in source order. -/
def matchers : List (List Char → Option LogEvent) :=
  [blockConnectedParseEvent, blockCheckedParseEvent]

/-- Embedding of `parse_log_event`: common data first, then the first
registered matcher that accepts the message wins; if none does, the
always-succeeding unknown-message matcher wraps the message. -/
def parse_log_event (line : List Char) : Log :=
  let cd := parse_common_log_data line
  match matchers.findSome? (fun m => m cd.message) with
  | some event =>
    ⟨cd.timestamp_micro, cd.category, cd.threadname, some event⟩
  | none =>
    ⟨cd.timestamp_micro, cd.category, cd.threadname,
      unknownParseEvent cd.message⟩

/-! ## The event envelope (`shared/src/protobuf/event.rs`)

`Event::new` stamps the current wall-clock time; the clock is an ambient
effect, passed here as the signed nanosecond offset of `SystemTime::now()`
from the Unix epoch. `duration_since(UNIX_EPOCH)` fails exactly when that
offset is negative; `as_millis` floors to milliseconds and `as u64` wraps. -/

/-- `SystemTimeError`: the clock reads earlier than the epoch. -/
inductive SystemTimeError where
  | clockBeforeEpoch
  deriving DecidableEq, Repr

/-- Modelled from the spec: the generated `Event` struct (`wrapper.proto`,
not under `src/`): an unsigned 64-bit millisecond timestamp plus exactly one
payload variant. The per-source payload taxonomy is opaque to the envelope
("a pure value container, not a validator of payload contents"), so it is a
type parameter here. -/
structure Event (α : Type) where
  timestamp : Nat
  peer_observer_event : Option α
  deriving DecidableEq, Repr

/-- Embedding of `Event::new`: fails iff the clock is before the epoch,
otherwise stamps the floored millisecond count (wrapped to 64 bits) and
wraps the given payload unmodified. -/
def Event.new {α : Type} (nowNanos : Int) (event : α) :
    Except SystemTimeError (Event α) :=
  if nowNanos < 0 then Except.error SystemTimeError.clockBeforeEpoch
  else Except.ok ⟨toU64 (nowNanos / 1000000), some event⟩

/-! ## The RPC extraction loop (`extractors/rpc/src/lib.rs`)

The loop body is a `tokio::select!` over two wake sources (the interval
timer and the shutdown watch channel); each run of the loop is driven here
by an oracle schedule of wake events. The RPC endpoint and the NATS bus are
abstracted by a per-query outcome oracle: every enabled query's
fetch/convert/wrap/serialize/publish pipeline either succeeds (one publish)
or fails with a `FetchOrPublishError` (one error log). -/

/-- The seven queryable RPCs, in the declared tick order of `run`. -/
inductive RpcQuery where
  | getpeerinfo
  | getmempoolinfo
  | uptime
  | getnettotals
  | getmemoryinfo
  | getaddrmaninfo
  | getchaintxstats
  deriving DecidableEq, Repr

/-- The declared query order of the tick body of `run`. -/
def queryOrder : List RpcQuery :=
  [RpcQuery.getpeerinfo, RpcQuery.getmempoolinfo, RpcQuery.uptime,
   RpcQuery.getnettotals, RpcQuery.getmemoryinfo, RpcQuery.getaddrmaninfo,
   RpcQuery.getchaintxstats]

/-- Modelled from the spec: `FetchOrPublishError` (`error.rs`, not under
`src/`) covers the recoverable per-operation failures: query failure,
payload conversion failure, serialization failure, publish failure. -/
inductive FetchOrPublishError where
  | fetch
  | conversion
  | serialization
  | publish
  deriving DecidableEq, Repr

/-- The per-query disable flags of `Args`. -/
structure RpcArgs where
  disable_getpeerinfo : Bool
  disable_getmempoolinfo : Bool
  disable_uptime : Bool
  disable_getnettotals : Bool
  disable_getmemoryinfo : Bool
  disable_getaddrmaninfo : Bool
  disable_getchaintxstats : Bool
  deriving DecidableEq, Repr

/-- The flag guarding one query in the tick body. -/
def disabled (a : RpcArgs) : RpcQuery → Bool
  | RpcQuery.getpeerinfo => a.disable_getpeerinfo
  | RpcQuery.getmempoolinfo => a.disable_getmempoolinfo
  | RpcQuery.uptime => a.disable_uptime
  | RpcQuery.getnettotals => a.disable_getnettotals
  | RpcQuery.getmemoryinfo => a.disable_getmemoryinfo
  | RpcQuery.getaddrmaninfo => a.disable_getaddrmaninfo
  | RpcQuery.getchaintxstats => a.disable_getchaintxstats

/-- One oracle run of a tick: for each query, the outcome of its whole
fetch/convert/wrap/serialize/publish pipeline. -/
def QueryOutcome : Type := RpcQuery → Except FetchOrPublishError Unit

/-- The observable actions of one tick: a successful publish, or an error
log carrying the query's name and the error cause (the
`log::error!("Could not fetch and publish '<name>': {}", e)` arm). -/
inductive TickAction where
  | published (q : RpcQuery)
  | loggedError (q : RpcQuery) (e : FetchOrPublishError)
  deriving DecidableEq, Repr

/-- One `if !disabled && let Err(e) = query(..) { log::error!(..) }`
statement of the tick body. -/
def tickStep (a : RpcArgs) (outcome : QueryOutcome) (q : RpcQuery) :
    List TickAction :=
  if disabled a q then []
  else
    match outcome q with
    | Except.ok _ => [TickAction.published q]
    | Except.error e => [TickAction.loggedError q e]

/-- The tick body of `run`: the seven guarded query statements in declared
order. Failures are caught inside each statement, so the body itself never
returns an error. -/
def runTick (a : RpcArgs) (outcome : QueryOutcome) : List TickAction :=
  tickStep a outcome RpcQuery.getpeerinfo ++
  tickStep a outcome RpcQuery.getmempoolinfo ++
  tickStep a outcome RpcQuery.uptime ++
  tickStep a outcome RpcQuery.getnettotals ++
  tickStep a outcome RpcQuery.getmemoryinfo ++
  tickStep a outcome RpcQuery.getaddrmaninfo ++
  tickStep a outcome RpcQuery.getchaintxstats

/-- What `shutdown_rx.changed().await` yields when the shutdown arm of the
select wins: `Ok` with the borrowed current value, or `Err` because every
sender was dropped. -/
inductive ShutdownRead where
  | changed (stop : Bool)
  | closed
  deriving DecidableEq, Repr

/-- One wake of the select loop: the interval timer fires (with the tick's
query outcomes), or the shutdown channel wakes. -/
inductive Wake where
  | tick (outcome : QueryOutcome)
  | shutdown (r : ShutdownRead)

/-- Whether `run` has returned. `ok` is `run` returning `Ok(())` after
`break`; `pending` means the wake schedule ran out with the loop still
going (the loop itself never returns an error). -/
inductive RunOutcome where
  | ok
  | pending
  deriving DecidableEq, Repr

/-- The steady-state loop of `run`, driven by a finite schedule of wake
events: a timer wake runs one full tick; a shutdown wake breaks the loop
(towards `Ok(())`) when the channel reports the stop value or when every
sender is gone, and continues otherwise. -/
def runLoop (a : RpcArgs) : List Wake → List TickAction × RunOutcome
  | [] => ([], RunOutcome.pending)
  | Wake.tick outcome :: rest =>
    let r := runLoop a rest
    (runTick a outcome ++ r.1, r.2)
  | Wake.shutdown (ShutdownRead.changed stop) :: rest =>
    if stop then ([], RunOutcome.ok) else runLoop a rest
  | Wake.shutdown ShutdownRead.closed :: _ => ([], RunOutcome.ok)

/-- The query a tick action belongs to. -/
def actionQuery : TickAction → RpcQuery
  | TickAction.published q => q
  | TickAction.loggedError q _ => q

/-! ## Theorems -/

/-- The queries a tick touches, in order: one action per enabled query. -/
theorem map_actionQuery_tickStep (a : RpcArgs) (o : QueryOutcome)
    (q : RpcQuery) :
    (tickStep a o q).map actionQuery = if disabled a q then [] else [q] := by
  unfold tickStep
  split
  · rfl
  · cases o q <;> rfl

/-- C1: on every tick, a failing enabled query (any of its fetch, convert,
serialize, or publish steps) is caught and logged with its name and cause;
every enabled query of the tick still contributes exactly one action, in the
declared query order; and the loop proceeds with the remaining schedule
instead of returning an error. -/
theorem c1_query_failure_isolated (a : RpcArgs) (outcome : QueryOutcome)
    (q : RpcQuery) (e : FetchOrPublishError) (rest : List Wake)
    (hq : disabled a q = false) (he : outcome q = Except.error e) :
    TickAction.loggedError q e ∈ runTick a outcome ∧
    (runTick a outcome).map actionQuery
      = queryOrder.filter (fun q2 => !disabled a q2) ∧
    runLoop a (Wake.tick outcome :: rest)
      = (runTick a outcome ++ (runLoop a rest).1, (runLoop a rest).2) := by
  refine ⟨?_, ?_, rfl⟩
  · cases q <;> simp [runTick, tickStep, hq, he]
  · simp only [runTick, List.map_append, map_actionQuery_tickStep,
      queryOrder, List.filter]
    obtain ⟨b1, b2, b3, b4, b5, b6, b7⟩ := a
    cases b1 <;> cases b2 <;> cases b3 <;> cases b4 <;> cases b5 <;>
      cases b6 <;> cases b7 <;> rfl

/-- C1 witness: all seven queries enabled, the second one failing at fetch;
the failure is logged, all seven are attempted in order, and the loop goes
on to process the rest of the schedule. -/
theorem c1_query_failure_isolated_witness :
    TickAction.loggedError RpcQuery.getmempoolinfo FetchOrPublishError.fetch
      ∈ runTick ⟨false, false, false, false, false, false, false⟩
        (fun q => if q = RpcQuery.getmempoolinfo
          then Except.error FetchOrPublishError.fetch else Except.ok ()) ∧
    (runTick ⟨false, false, false, false, false, false, false⟩
        (fun q => if q = RpcQuery.getmempoolinfo
          then Except.error FetchOrPublishError.fetch else Except.ok ())).map
        actionQuery
      = queryOrder.filter
          (fun q2 => !disabled ⟨false, false, false, false, false, false, false⟩ q2) ∧
    runLoop ⟨false, false, false, false, false, false, false⟩
        (Wake.tick (fun q => if q = RpcQuery.getmempoolinfo
          then Except.error FetchOrPublishError.fetch else Except.ok ())
          :: [Wake.shutdown (ShutdownRead.changed true)])
      = (runTick ⟨false, false, false, false, false, false, false⟩
          (fun q => if q = RpcQuery.getmempoolinfo
            then Except.error FetchOrPublishError.fetch else Except.ok ())
          ++ (runLoop ⟨false, false, false, false, false, false, false⟩
              [Wake.shutdown (ShutdownRead.changed true)]).1,
         (runLoop ⟨false, false, false, false, false, false, false⟩
            [Wake.shutdown (ShutdownRead.changed true)]).2) :=
  c1_query_failure_isolated
    ⟨false, false, false, false, false, false, false⟩
    (fun q => if q = RpcQuery.getmempoolinfo
      then Except.error FetchOrPublishError.fetch else Except.ok ())
    RpcQuery.getmempoolinfo FetchOrPublishError.fetch
    [Wake.shutdown (ShutdownRead.changed true)]
    (by rfl) (by rfl)

/-- C2: at any between-ticks state of the loop, a shutdown wake whose read
is the stop value, or whose sender side is gone, makes the loop exit
cleanly (`run` returns `Ok`) without starting a new tick; a wake with a
non-stop value leaves the loop running on the remaining schedule. -/
theorem c2_shutdown_between_ticks (a : RpcArgs) (rest : List Wake) :
    runLoop a (Wake.shutdown (ShutdownRead.changed true) :: rest)
      = ([], RunOutcome.ok) ∧
    runLoop a (Wake.shutdown ShutdownRead.closed :: rest)
      = ([], RunOutcome.ok) ∧
    runLoop a (Wake.shutdown (ShutdownRead.changed false) :: rest)
      = runLoop a rest :=
  ⟨rfl, rfl, rfl⟩

/-- C8: envelope construction fails exactly when the clock reads before the
Unix epoch; otherwise it stamps the wall-clock time in unsigned 64-bit epoch
milliseconds and wraps the payload variant unmodified. -/
theorem c8_envelope_new (α : Type) (nowNanos : Int) (payload : α) :
    (Event.new nowNanos payload
        = Except.error SystemTimeError.clockBeforeEpoch ↔ nowNanos < 0) ∧
    (0 ≤ nowNanos → nowNanos / 1000000 < 2 ^ 64 →
      Event.new nowNanos payload
        = Except.ok ⟨(nowNanos / 1000000).toNat, some payload⟩) := by
  constructor
  · unfold Event.new
    split
    · simp_all
    · simp_all
  · intro h1 h2
    have hq : (0 : Int) ≤ nowNanos / 1000000 := Int.ediv_nonneg h1 (by norm_num)
    unfold Event.new
    rw [if_neg (by omega)]
    unfold toU64
    rw [Int.emod_eq_of_lt hq h2]

/-- C8 witness: a concrete post-epoch clock reading is stamped as its
millisecond count with the payload intact, and a pre-epoch reading fails. -/
theorem c8_envelope_new_witness :
    Event.new (1759372274123456789 : Int) (42 : Nat)
      = Except.ok ⟨1759372274123, some 42⟩ ∧
    Event.new (-5 : Int) (42 : Nat)
      = Except.error SystemTimeError.clockBeforeEpoch :=
  ⟨((c8_envelope_new Nat 1759372274123456789 42).2 (by decide)
      (by decide)).trans (by rfl),
   (c8_envelope_new Nat (-5) 42).1.mpr (by decide)⟩

/-- C3: a line that fails the structural shape classifies to the
all-defaults record (timestamp 0, category Unknown, empty thread name, empty
message), and the resulting event is the Unknown variant wrapping the empty
message; classification is a total function. -/
theorem c3_structural_failure_all_defaults (line : List Char)
    (h : logLineCaptures line = none) :
    parse_common_log_data line = ⟨0, LogDebugCategory.Unknown, [], []⟩ ∧
    parse_log_event line
      = ⟨0, LogDebugCategory.Unknown, [],
          some (LogEvent.UnknownLogMessage [])⟩ := by
  have h1 : parse_common_log_data line
      = ⟨0, LogDebugCategory.Unknown, [], []⟩ := by
    simp only [parse_common_log_data, h]
  refine ⟨h1, ?_⟩
  unfold parse_log_event
  rw [h1]
  rfl

/-- C3 witness: a concrete line with no RFC3339-shaped prefix. -/
theorem c3_structural_failure_all_defaults_witness :
    parse_common_log_data "not a log line".toList
      = ⟨0, LogDebugCategory.Unknown, [], []⟩ ∧
    parse_log_event "not a log line".toList
      = ⟨0, LogDebugCategory.Unknown, [],
          some (LogEvent.UnknownLogMessage [])⟩ :=
  c3_structural_failure_all_defaults "not a log line".toList (by decide)

/-- C4 counterexample: the line `1969-12-31T23:59:59Z x` matches the
structural shape and its timestamp parses as a valid calendar instant one
second before the epoch, whose exact microsecond truncation is the negative
number -1000000; the code stores the wrapped value 2^64 - 10^6 instead, so
`timestamp_micro` does not equal the exact microsecond truncation. -/
theorem c4_counterexample :
    logLineCaptures "1969-12-31T23:59:59Z x".toList
      = some ⟨"1969-12-31T23:59:59Z".toList, [], ['x']⟩ ∧
    rfc3339ToNanos "1969-12-31T23:59:59Z".toList = some (-1000000000) ∧
    (parse_common_log_data "1969-12-31T23:59:59Z x".toList).timestamp_micro
      = 18446744073708551616 ∧
    ¬ (((parse_common_log_data "1969-12-31T23:59:59Z x".toList).timestamp_micro : Int)
        = Int.tdiv (-1000000000) NANOS_PER_MICRO) :=
  ⟨by decide, by decide, by decide, by decide⟩

/-- C4 (amended): for a structurally matching line whose timestamp parses as
a valid calendar instant, `timestamp_micro` is the microsecond truncation of
that instant reduced modulo 2^64; for instants at or after the epoch (whose
microsecond count fits in 64 bits) this is exactly the microsecond count. -/
theorem c4_timestamp_micro_modulo (line : List Char) (caps : RawCaps)
    (nanos : Int) (h : logLineCaptures line = some caps)
    (ht : rfc3339ToNanos caps.timestamp = some nanos) :
    (parse_common_log_data line).timestamp_micro
      = toU64 (nanos.tdiv NANOS_PER_MICRO) ∧
    (0 ≤ nanos → nanos.tdiv NANOS_PER_MICRO < 2 ^ 64 →
      ((parse_common_log_data line).timestamp_micro : Int)
        = nanos.tdiv NANOS_PER_MICRO) := by
  have h1 : (parse_common_log_data line).timestamp_micro
      = toU64 (nanos.tdiv NANOS_PER_MICRO) := by
    simp only [parse_common_log_data, h, ht]
  refine ⟨h1, fun hp hlt => ?_⟩
  rw [h1]
  unfold toU64
  have h0 : 0 ≤ nanos.tdiv NANOS_PER_MICRO :=
    Int.tdiv_nonneg hp (by norm_num [NANOS_PER_MICRO])
  rw [Int.emod_eq_of_lt h0 hlt, Int.toNat_of_nonneg h0]

/-- C4 witness: the repository's own fixture line, whose timestamp is
1759372274 seconds after the epoch. -/
theorem c4_timestamp_micro_modulo_witness :
    (parse_common_log_data
        "2025-10-02T02:31:14Z Verification progress: 50%".toList).timestamp_micro
      = toU64 (Int.tdiv 1759372274000000000 NANOS_PER_MICRO) ∧
    ((parse_common_log_data
        "2025-10-02T02:31:14Z Verification progress: 50%".toList).timestamp_micro : Int)
      = Int.tdiv 1759372274000000000 NANOS_PER_MICRO :=
  ⟨(c4_timestamp_micro_modulo _
      ⟨"2025-10-02T02:31:14Z".toList, [], "Verification progress: 50%".toList⟩
      1759372274000000000 (by decide) (by decide)).1,
   (c4_timestamp_micro_modulo _
      ⟨"2025-10-02T02:31:14Z".toList, [], "Verification progress: 50%".toList⟩
      1759372274000000000 (by decide) (by decide)).2 (by decide) (by decide)⟩

/-- C5: on a structurally matching line whose timestamp fails calendar
parsing, `timestamp_micro` is 0 while category, thread name and message are
still extracted by the same token rule and message capture as for a valid
timestamp. -/
theorem c5_invalid_calendar_decoupled (line : List Char) (caps : RawCaps)
    (h : logLineCaptures line = some caps)
    (ht : rfc3339ToNanos caps.timestamp = none) :
    parse_common_log_data line =
      ⟨0, (extractCategory (tokensOf caps.metadata)).1,
        ((extractCategory (tokensOf caps.metadata)).2.head?).getD [],
        caps.message⟩ := by
  simp only [parse_common_log_data, h, ht]
  rfl

/-- C5 witness: the repository's own fixture line with month/day/time out of
range (`2025-99-99T99:99:99.358911Z`): timestamp 0, but the category token
and message are extracted normally. -/
theorem c5_invalid_calendar_decoupled_witness :
    logLineCaptures
        "2025-99-99T99:99:99.358911Z [validation] Random message".toList
      = some ⟨"2025-99-99T99:99:99.358911Z".toList,
          "[validation] ".toList, "Random message".toList⟩ ∧
    rfc3339ToNanos "2025-99-99T99:99:99.358911Z".toList = none ∧
    parse_common_log_data
        "2025-99-99T99:99:99.358911Z [validation] Random message".toList
      = ⟨0, LogDebugCategory.Validation, [], "Random message".toList⟩ :=
  ⟨by decide, by decide,
   (c5_invalid_calendar_decoupled _
      ⟨"2025-99-99T99:99:99.358911Z".toList, "[validation] ".toList,
        "Random message".toList⟩
      (by decide) (by decide)).trans (by decide)⟩

/-- C6: on every structurally matching line, the last bracketed token is
tested (case-insensitively, by uppercased exact name) against the category
enumeration and consumed when it matches, the first remaining token becomes
the thread label, and any tokens in between are discarded: the category and
thread name are exactly the category-extraction rule applied to the token
list; for tokens `A :: mid ++ [B]` with `B` a category name, the category is
`B`'s value and the thread name is `A` whatever `mid` holds; for a single
token `A` that is not a category name, the thread name is `A` and the
category is Unknown. -/
theorem c6_token_priority (line : List Char) (caps : RawCaps)
    (A B : List Char) (cat : LogDebugCategory)
    (h : logLineCaptures line = some caps) :
    ((parse_common_log_data line).category
        = (extractCategory (tokensOf caps.metadata)).1 ∧
      (parse_common_log_data line).threadname
        = ((extractCategory (tokensOf caps.metadata)).2.head?).getD []) ∧
    (∀ mid, tokensOf caps.metadata = A :: (mid ++ [B]) →
      fromStrName (toUpperAscii B) = some cat →
      (parse_common_log_data line).category = cat ∧
      (parse_common_log_data line).threadname = A) ∧
    (tokensOf caps.metadata = [A] → fromStrName (toUpperAscii A) = none →
      (parse_common_log_data line).category = LogDebugCategory.Unknown ∧
      (parse_common_log_data line).threadname = A) := by
  have hgen : (parse_common_log_data line).category
        = (extractCategory (tokensOf caps.metadata)).1 ∧
      (parse_common_log_data line).threadname
        = ((extractCategory (tokensOf caps.metadata)).2.head?).getD [] := by
    constructor
    · simp only [parse_common_log_data, h]
    · simp only [parse_common_log_data, h]
  refine ⟨hgen, fun mid htok hcat => ?_, fun htok hcat => ?_⟩
  · have hx : extractCategory (tokensOf caps.metadata) = (cat, A :: mid) := by
      rw [htok]
      have h1 : (A :: (mid ++ [B])).getLast? = some B := by
        rw [← List.cons_append, List.getLast?_concat]
      have h2 : (A :: (mid ++ [B])).dropLast = A :: mid := by
        rw [← List.cons_append, List.dropLast_concat]
      simp only [extractCategory, h1, h2, hcat]
    rw [hgen.1, hgen.2, hx]
    exact ⟨rfl, rfl⟩
  · have hx : extractCategory (tokensOf caps.metadata)
        = (LogDebugCategory.Unknown, [A]) := by
      rw [htok]
      have h1 : ([A] : List (List Char)).getLast? = some A := rfl
      simp only [extractCategory, h1, hcat]
    rw [hgen.1, hgen.2, hx]
    exact ⟨rfl, rfl⟩

/-- C6 witness: the repository's fixture lines `[msghand] [net] ...`
(thread name before a recognized category) and
`[This-Is-N0t-a-valid-category] ...` (a single unrecognized token). -/
theorem c6_token_priority_witness :
    ((parse_common_log_data
        "2025-12-23T22:38:01.977182Z [msghand] [net] received: pong (8 bytes) peer=0".toList).category
      = LogDebugCategory.Net ∧
     (parse_common_log_data
        "2025-12-23T22:38:01.977182Z [msghand] [net] received: pong (8 bytes) peer=0".toList).threadname
      = "msghand".toList) ∧
    ((parse_common_log_data
        "2025-22-17T23:52:01.358911Z [This-Is-N0t-a-valid-category] Random message".toList).category
      = LogDebugCategory.Unknown ∧
     (parse_common_log_data
        "2025-22-17T23:52:01.358911Z [This-Is-N0t-a-valid-category] Random message".toList).threadname
      = "This-Is-N0t-a-valid-category".toList) :=
  ⟨(c6_token_priority _
      ⟨"2025-12-23T22:38:01.977182Z".toList, "[msghand] [net] ".toList,
        "received: pong (8 bytes) peer=0".toList⟩
      "msghand".toList "net".toList LogDebugCategory.Net
      (by decide)).2.1 [] (by decide) (by decide),
   (c6_token_priority _
      ⟨"2025-22-17T23:52:01.358911Z".toList,
        "[This-Is-N0t-a-valid-category] ".toList, "Random message".toList⟩
      "This-Is-N0t-a-valid-category".toList [] LogDebugCategory.Unknown
      (by decide)).2.2 (by decide) (by decide)⟩

/-- Any event produced by the block-connected matcher is a
`BlockConnectedLog`. -/
theorem blockConnected_shape (msg : List Char) (e : LogEvent)
    (h : blockConnectedParseEvent msg = some e) :
    ∃ hsh n, e = LogEvent.BlockConnectedLog hsh n := by
  rcases hf : regexFind bcMatchAt msg with _ | caps
  · simp [blockConnectedParseEvent, hf] at h
  · rcases hp : parseU32 caps.2 with _ | n
    · simp [blockConnectedParseEvent, hf, hp] at h
    · simp [blockConnectedParseEvent, hf, hp] at h
      exact ⟨caps.1, n, h.symm⟩

/-- Any event produced by the block-checked matcher is a `BlockCheckedLog`. -/
theorem blockChecked_shape (msg : List Char) (e : LogEvent)
    (h : blockCheckedParseEvent msg = some e) :
    ∃ hsh st db, e = LogEvent.BlockCheckedLog hsh st db := by
  rcases hf : regexFind bchkMatchAt msg with _ | caps
  · simp [blockCheckedParseEvent, hf] at h
  · simp [blockCheckedParseEvent, hf] at h
    exact ⟨caps.1, caps.2.1, caps.2.2, h.symm⟩

/-- C7: the event matchers run in registration order — block-connected
first, then block-checked — and the first one that accepts the message
determines the event; the Unknown-message event (wrapping the raw message
remainder) is produced exactly when neither specific matcher accepts. -/
theorem c7_matcher_order (line : List Char) :
    (∀ e, blockConnectedParseEvent (parse_common_log_data line).message = some e →
      (parse_log_event line).log_event = some e) ∧
    (blockConnectedParseEvent (parse_common_log_data line).message = none →
      ∀ e, blockCheckedParseEvent (parse_common_log_data line).message = some e →
        (parse_log_event line).log_event = some e) ∧
    ((parse_log_event line).log_event
        = some (LogEvent.UnknownLogMessage (parse_common_log_data line).message) ↔
      blockConnectedParseEvent (parse_common_log_data line).message = none ∧
      blockCheckedParseEvent (parse_common_log_data line).message = none) := by
  refine ⟨?_, ?_, ?_⟩
  · intro e he
    simp [parse_log_event, matchers, List.findSome?, he]
  · intro hn e he
    simp [parse_log_event, matchers, List.findSome?, hn, he]
  · constructor
    · intro hu
      rcases hbc : blockConnectedParseEvent (parse_common_log_data line).message
          with _ | e1
      · rcases hbk : blockCheckedParseEvent (parse_common_log_data line).message
            with _ | e2
        · exact ⟨rfl, rfl⟩
        · exfalso
          obtain ⟨hsh, st, db, he2⟩ := blockChecked_shape _ e2 hbk
          simp [parse_log_event, matchers, List.findSome?, hbc, hbk, he2] at hu
      · exfalso
        obtain ⟨hsh, n, he1⟩ := blockConnected_shape _ e1 hbc
        simp [parse_log_event, matchers, List.findSome?, hbc, he1] at hu
    · rintro ⟨hn1, hn2⟩
      simp [parse_log_event, matchers, List.findSome?, hn1, hn2,
        unknownParseEvent]

/-- C7 witness: the repository's block-connected fixture line is classified
by the first matcher, and its unknown-message fixture line classifies to the
Unknown event exactly because neither specific matcher accepts it. -/
theorem c7_matcher_order_witness :
    (parse_log_event
        "2025-09-27T01:52:01Z [validation] BlockConnected: block hash=6022a9138d879a9d525dba16a0e7d85eda9874736c1aed5c8da0c23ee878db4f block height=5".toList).log_event
      = some (LogEvent.BlockConnectedLog
          "6022a9138d879a9d525dba16a0e7d85eda9874736c1aed5c8da0c23ee878db4f".toList 5) ∧
    (parse_log_event
        "2025-10-02T02:31:14Z Verification progress: 50%".toList).log_event
      = some (LogEvent.UnknownLogMessage
          "Verification progress: 50%".toList) :=
  ⟨(c7_matcher_order _).1 _ (by decide),
   by
    have h := ((c7_matcher_order
        "2025-10-02T02:31:14Z Verification progress: 50%".toList).2.2).mpr
      ⟨by decide, by decide⟩
    exact h.trans (by decide)⟩

/-- The unanchored search scans start positions left to right: if every
position before `i` has no match and position `i` has one, the search result
is the match at `i`. -/
theorem regexFind_leftmost {α : Type} (f : List Char → Option α) :
    ∀ (line : List Char) (i : Nat),
      (∀ j, j < i → f (line.drop j) = none) →
      (f (line.drop i)).isSome = true →
      regexFind f line = f (line.drop i) := by
  intro line
  induction line with
  | nil =>
    intro i hlt hs
    cases i with
    | zero => rfl
    | succ n =>
      rw [List.drop_nil] at hs
      have h0 := hlt 0 (Nat.succ_pos n)
      rw [List.drop_nil] at h0
      rw [h0] at hs
      simp at hs
  | cons c rest ih =>
    intro i hlt hs
    cases i with
    | zero =>
      obtain ⟨a, ha⟩ := Option.isSome_iff_exists.mp hs
      rw [List.drop_zero] at ha ⊢
      simp [regexFind, ha]
    | succ n =>
      have h0 := hlt 0 (Nat.succ_pos n)
      rw [List.drop_zero] at h0
      rw [List.drop_succ_cons] at hs ⊢
      simp only [regexFind, h0]
      exact ih n
        (fun j hj => by
          have := hlt (j + 1) (Nat.succ_lt_succ hj)
          rwa [List.drop_succ_cons] at this)
        hs

/-- C9: both specific matchers are unanchored substring searches: whenever
the pattern first matches at position `i` of the message (all earlier
positions failing), the matcher's result is built from that embedded
occurrence — the message is not required to start with the pattern. -/
theorem c9_unanchored_matchers (line : List Char) (i : Nat) :
    ((∀ j, j < i → bcMatchAt (line.drop j) = none) →
      (bcMatchAt (line.drop i)).isSome = true →
      regexFind bcMatchAt line = bcMatchAt (line.drop i) ∧
      blockConnectedParseEvent line
        = (bcMatchAt (line.drop i)).bind (fun caps =>
            (parseU32 caps.2).bind (fun n =>
              some (LogEvent.BlockConnectedLog caps.1 n)))) ∧
    ((∀ j, j < i → bchkMatchAt (line.drop j) = none) →
      (bchkMatchAt (line.drop i)).isSome = true →
      regexFind bchkMatchAt line = bchkMatchAt (line.drop i) ∧
      blockCheckedParseEvent line
        = (bchkMatchAt (line.drop i)).map (fun c =>
            LogEvent.BlockCheckedLog c.1 c.2.1 c.2.2)) := by
  constructor
  · intro h1 h2
    have hf := regexFind_leftmost bcMatchAt line i h1 h2
    refine ⟨hf, ?_⟩
    unfold blockConnectedParseEvent
    rw [hf]
    rfl
  · intro h1 h2
    have hf := regexFind_leftmost bchkMatchAt line i h1 h2
    refine ⟨hf, ?_⟩
    unfold blockCheckedParseEvent
    rw [hf]

/-- C9 witness: the repository's `Enqueuing BlockConnected: ...` fixture
message, where the pattern first occurs at position 10, still produces the
typed block-connected event from that embedded occurrence. -/
theorem c9_unanchored_matchers_witness :
    regexFind bcMatchAt
        "Enqueuing BlockConnected: block hash=41109f31c8ca4d8683ab5571ba462292ddb8486dee6ecd2e62901accc7952f0b block height=437".toList
      = bcMatchAt
        ("Enqueuing BlockConnected: block hash=41109f31c8ca4d8683ab5571ba462292ddb8486dee6ecd2e62901accc7952f0b block height=437".toList.drop 10) ∧
    blockConnectedParseEvent
        "Enqueuing BlockConnected: block hash=41109f31c8ca4d8683ab5571ba462292ddb8486dee6ecd2e62901accc7952f0b block height=437".toList
      = some (LogEvent.BlockConnectedLog
          "41109f31c8ca4d8683ab5571ba462292ddb8486dee6ecd2e62901accc7952f0b".toList
          437) := by
  have h := (c9_unanchored_matchers
      "Enqueuing BlockConnected: block hash=41109f31c8ca4d8683ab5571ba462292ddb8486dee6ecd2e62901accc7952f0b block height=437".toList
      10).1 (by decide) (by decide)
  exact ⟨h.1, h.2.trans (by decide)⟩

/-- A greedy character-class run stops exactly at the first character
outside the class. -/
theorem takeWhile_append_all {α : Type} (p : α → Bool) (xs : List α) (y : α)
    (hx : ∀ x ∈ xs, p x = true) (hy : p y = false) :
    (xs ++ [y]).takeWhile p = xs := by
  induction xs with
  | nil => simp [List.takeWhile_cons, hy]
  | cons a t ih =>
    simp [List.takeWhile_cons, hx a (List.mem_cons_self a t),
      ih (fun x hm => hx x (List.mem_cons_of_mem a hm))]

/-- `[^\]]+` run inside a bracketed token: with no `]` in the token, the
greedy run over `tok ++ [']']` is exactly `tok`. -/
theorem takeWhile_ne_append (tok : List Char) (h2 : ']' ∉ tok) :
    (tok ++ [']']).takeWhile (fun c => c ≠ ']') = tok :=
  takeWhile_append_all _ tok ']'
    (fun x hx => by
      simp only [decide_eq_true_eq]
      intro hh
      exact h2 (hh ▸ hx))
    (by simp)

/-- On input that is exactly one bracketed token (no trailing whitespace),
the suffix matcher abandons the starred iteration — the token's trailing
`\s+` has nothing to consume — and the message capture absorbs the whole
token text. -/
theorem starMsgAux_token_only (fuel : Nat) (tok : List Char)
    (h1 : tok ≠ []) (h2 : ']' ∉ tok) (h3 : '\n' ∉ tok) :
    starMsgAux (fuel + 1) ('[' :: (tok ++ [']']))
      = some ([], '[' :: (tok ++ [']'])) := by
  have htw : (tok ++ [']']).takeWhile (fun c => c ≠ ']') = tok :=
    takeWhile_ne_append tok h2
  have hlen : tok.length ≠ 0 := by
    intro hh
    exact h1 (List.length_eq_zero.mp hh)
  have hpt : parseTok ('[' :: (tok ++ [']'])) = some (tok, []) := by
    simp only [parseTok, htw, List.drop_left]
    simp [hlen]
  simp only [starMsgAux, hpt]
  simp [h3]

/-- C10 counterexample: the line `2025-10-02T02:31:14Z [net]` — a
well-formed timestamp, one bracketed token, nothing after it — matches the
structural shape (the message capture absorbs `[net]`), so classify does not
return the all-defaults record and the timestamp is parsed, not zeroed. -/
theorem c10_counterexample :
    logLineCaptures "2025-10-02T02:31:14Z [net]".toList
      = some ⟨"2025-10-02T02:31:14Z".toList, [], "[net]".toList⟩ ∧
    parse_common_log_data "2025-10-02T02:31:14Z [net]".toList
      ≠ ⟨0, LogDebugCategory.Unknown, [], []⟩ ∧
    (parse_common_log_data "2025-10-02T02:31:14Z [net]".toList).timestamp_micro
      = 1759372274000000 :=
  ⟨by decide, by decide, by decide⟩

/-- C10 (amended): a line where nothing at all, or exactly one whitespace
character and nothing else, follows the well-formed timestamp fails the
structural match as a whole and classifies to the all-defaults record
(timestamp 0, category Unknown, empty thread label); but the
non-empty-message requirement does not extend to a line ending in a
bracketed token: a line consisting of a well-formed timestamp, one space,
and a single bracketed token (and nothing after it) matches structurally,
with the message capture absorbing the token text — the timestamp is parsed
normally, the category is Unknown, the thread label is empty, and the token
is not treated as metadata. -/
theorem c10_trailing_token_absorbed (line ts tok : List Char)
    (hts : parseTimestamp line = some (ts, ' ' :: '[' :: (tok ++ [']'])))
    (h1 : tok ≠ []) (h2 : ']' ∉ tok) (h3 : '\n' ∉ tok) :
    (logLineCaptures line = some ⟨ts, [], '[' :: (tok ++ [']'])⟩ ∧
      (parse_common_log_data line).message = '[' :: (tok ++ [']']) ∧
      (parse_common_log_data line).category = LogDebugCategory.Unknown ∧
      (parse_common_log_data line).threadname = []) ∧
    (∀ line2 ts2, parseTimestamp line2 = some (ts2, []) →
      logLineCaptures line2 = none ∧
      parse_common_log_data line2 = ⟨0, LogDebugCategory.Unknown, [], []⟩) ∧
    (∀ line3 ts3 c, isWs c = true → parseTimestamp line3 = some (ts3, [c]) →
      logLineCaptures line3 = none ∧
      parse_common_log_data line3 = ⟨0, LogDebugCategory.Unknown, [], []⟩) := by
  have hms : matchStarMsg ('[' :: (tok ++ [']']))
      = some ([], '[' :: (tok ++ [']'])) := by
    have hlen : ('[' :: (tok ++ [']'])).length + 1 = (tok.length + 2) + 1 := by
      simp [List.length_cons, List.length_append]
    unfold matchStarMsg
    rw [hlen]
    exact starMsgAux_token_only (tok.length + 2) tok h1 h2 h3
  have ha : logLineCaptures line = some ⟨ts, [], '[' :: (tok ++ [']'])⟩ := by
    have htw1 : List.takeWhile isWs (' ' :: '[' :: (tok ++ [']'])) = [' '] := rfl
    have htw2 : List.takeWhile isWs ('[' :: (tok ++ [']'])) = [] := rfl
    simp only [logLineCaptures, hts, htw1]
    simp [hms, htw2, List.findSome?, show List.range 1 = [0] from rfl]
  refine ⟨⟨ha, ?_, ?_, ?_⟩, ?_, ?_⟩
  · simp only [parse_common_log_data, ha]
  · simp only [parse_common_log_data, ha]
    rfl
  · simp only [parse_common_log_data, ha]
    rfl
  · intro line2 ts2 hp
    have hc : logLineCaptures line2 = none := by
      simp only [logLineCaptures, hp]
      rfl
    exact ⟨hc, by simp only [parse_common_log_data, hc]⟩
  · intro line3 ts3 c hw hp
    have htw : List.takeWhile isWs [c] = [c] := by
      simp [List.takeWhile_cons, hw]
    have hc : logLineCaptures line3 = none := by
      simp only [logLineCaptures, hp, htw]
      rfl
    exact ⟨hc, by simp only [parse_common_log_data, hc]⟩

/-- C10 witness: the counterexample line instantiates the token-absorption
case, and the bare timestamp and the timestamp plus one space instantiate
the two all-defaults shapes. -/
theorem c10_trailing_token_absorbed_witness :
    (logLineCaptures "2025-10-02T02:31:14Z [net]".toList
        = some ⟨"2025-10-02T02:31:14Z".toList, [], "[net]".toList⟩ ∧
      (parse_common_log_data "2025-10-02T02:31:14Z [net]".toList).message
        = "[net]".toList ∧
      (parse_common_log_data "2025-10-02T02:31:14Z [net]".toList).category
        = LogDebugCategory.Unknown ∧
      (parse_common_log_data "2025-10-02T02:31:14Z [net]".toList).threadname
        = []) ∧
    (logLineCaptures "2025-10-02T02:31:14Z".toList = none ∧
      parse_common_log_data "2025-10-02T02:31:14Z".toList
        = ⟨0, LogDebugCategory.Unknown, [], []⟩) ∧
    (logLineCaptures "2025-10-02T02:31:14Z ".toList = none ∧
      parse_common_log_data "2025-10-02T02:31:14Z ".toList
        = ⟨0, LogDebugCategory.Unknown, [], []⟩) := by
  have h := c10_trailing_token_absorbed
    "2025-10-02T02:31:14Z [net]".toList "2025-10-02T02:31:14Z".toList
    "net".toList (by decide) (by decide) (by decide) (by decide)
  refine ⟨h.1, ?_, ?_⟩
  · exact h.2.1 "2025-10-02T02:31:14Z".toList "2025-10-02T02:31:14Z".toList
      (by decide)
  · exact h.2.2 "2025-10-02T02:31:14Z ".toList "2025-10-02T02:31:14Z".toList
      ' ' (by decide) (by decide)

end PeerObserver
